import Mathlib

/-!
Verification development for the notebook repository (fc_model checkpointing,
training loop, validation loop, classifier forward pass).

The PyTorch objects are shallowly embedded:

* a tensor is a declared shape plus a flat value list;
* `state_dict` keys (`hidden_layers.<i>.weight`, `hidden_layers.<i>.bias`,
  `output.weight`, `output.bias`) are embedded as the structured type
  `ParamKey` (the string rendering is injective on these keys, so nothing is
  lost);
* `Module.load_state_dict` (strict mode) walks the module's own parameters,
  copies every entry of matching shape in place, and collects
  size-mismatch / missing-key / unexpected-key errors; it raises a
  `RuntimeError` exactly when the collected error list is non-empty.  The
  embedding returns the (possibly partially updated) network together with
  that error list;
* `torch.save` / `torch.load` round-trip a value unchanged, so file I/O is
  elided and the loader consumes the checkpoint record directly.

Parameter values are kept polymorphic in `α` (float32 values are only ever
copied, never computed with, in the claims about checkpointing).
-/

namespace FcNet

/-- A numeric tensor: a declared shape together with its (flattened) data. -/
structure Tensor (α : Type) where
  shape : List Nat
  data : List α
deriving DecidableEq

/-- Structured form of the `state_dict` keys of `fc_model.Network`:
`hidden_layers.<i>.weight`, `hidden_layers.<i>.bias`, `output.weight`,
`output.bias`. -/
inductive ParamKey where
  | hiddenWeight (i : Nat)
  | hiddenBias (i : Nat)
  | outputWeight
  | outputBias
deriving DecidableEq

/-- The error kinds `Module.load_state_dict` collects before raising
`RuntimeError`: size mismatches, missing keys and unexpected keys. -/
inductive LoadError where
  | sizeMismatch (k : ParamKey)
  | missingKey (k : ParamKey)
  | unexpectedKey (k : ParamKey)
deriving DecidableEq

/-- `nn.Linear(in_features, out_features)`: a weight matrix of shape
`[out_features, in_features]` (stored flattened) and a bias vector of shape
`[out_features]`. -/
structure Linear (α : Type) where
  in_features : Nat
  out_features : Nat
  weight : List α
  bias : List α
deriving DecidableEq

/-- The weight entry a `Linear` layer contributes to a `state_dict`. -/
def Linear.weightT {α : Type} (l : Linear α) : Tensor α :=
  ⟨[l.out_features, l.in_features], l.weight⟩

/-- The bias entry a `Linear` layer contributes to a `state_dict`. -/
def Linear.biasT {α : Type} (l : Linear α) : Tensor α :=
  ⟨[l.out_features], l.bias⟩

/-- The `(in_features, out_features)` pair of a layer. -/
def Linear.sizes {α : Type} (l : Linear α) : Nat × Nat :=
  (l.in_features, l.out_features)

/-- `fc_model.Network`: a `ModuleList` of hidden `Linear` layers followed by
an output `Linear` layer (the dropout module holds no parameters and plays no
role in checkpointing). -/
structure Network (α : Type) where
  hidden_layers : List (Linear α)
  output : Linear α
deriving DecidableEq

/-- The `state_dict` entries of the hidden layers, indexed from `i`. -/
def hiddenEntries {α : Type} : Nat → List (Linear α) → List (ParamKey × Tensor α)
  | _, [] => []
  | i, l :: ls =>
    (ParamKey.hiddenWeight i, l.weightT) ::
    (ParamKey.hiddenBias i, l.biasT) ::
    hiddenEntries (i + 1) ls

/-- `model.state_dict()`: the ordered parameter map of the network, hidden
layers first (in index order, weight before bias), then the output layer. -/
def Network.state_dict {α : Type} (net : Network α) : List (ParamKey × Tensor α) :=
  hiddenEntries 0 net.hidden_layers ++
  [(ParamKey.outputWeight, net.output.weightT), (ParamKey.outputBias, net.output.biasT)]

/-- The parameter names of the network, in `state_dict` order. -/
def Network.keyList {α : Type} (net : Network α) : List ParamKey :=
  net.state_dict.map Prod.fst

/-- First-match association-list lookup (dictionary access by key). -/
def lookupT {α : Type} (k : ParamKey) : List (ParamKey × Tensor α) → Option (Tensor α)
  | [] => none
  | (k₀, t) :: rest => if k₀ = k then some t else lookupT k rest

/-- Loading one parameter from a state dict, as `load_state_dict` does it: a
present entry of the expected shape replaces the value; a present entry of a
different shape is rejected with a size-mismatch error and the old value is
kept; an absent entry yields a missing-key error. -/
def loadParam {α : Type} (old : List α) (expected : List Nat) (k : ParamKey)
    (sd : List (ParamKey × Tensor α)) : List α × List LoadError :=
  match lookupT k sd with
  | none => (old, [LoadError.missingKey k])
  | some t =>
    if t.shape = expected then (t.data, []) else (old, [LoadError.sizeMismatch k])

/-- Loading both parameters of a `Linear` layer from a state dict. -/
def Linear.load {α : Type} (l : Linear α) (wk bk : ParamKey)
    (sd : List (ParamKey × Tensor α)) : Linear α × List LoadError :=
  ({ l with
      weight := (loadParam l.weight [l.out_features, l.in_features] wk sd).1,
      bias := (loadParam l.bias [l.out_features] bk sd).1 },
   (loadParam l.weight [l.out_features, l.in_features] wk sd).2 ++
   (loadParam l.bias [l.out_features] bk sd).2)

/-- Loading the hidden layers, indexed from `i`, from a state dict. -/
def loadHidden {α : Type} (sd : List (ParamKey × Tensor α)) :
    Nat → List (Linear α) → List (Linear α) × List LoadError
  | _, [] => ([], [])
  | i, c :: cs =>
    ((c.load (ParamKey.hiddenWeight i) (ParamKey.hiddenBias i) sd).1 ::
       (loadHidden sd (i + 1) cs).1,
     (c.load (ParamKey.hiddenWeight i) (ParamKey.hiddenBias i) sd).2 ++
       (loadHidden sd (i + 1) cs).2)

/-- `model.load_state_dict(sd)` in strict mode: every own parameter is looked
up and copied when the shapes agree; size mismatches, missing keys and
unexpected keys are collected, and a `RuntimeError` is raised (after the
copies already made) exactly when the error list is non-empty. -/
def Network.loadStateDict {α : Type} (net : Network α)
    (sd : List (ParamKey × Tensor α)) : Network α × List LoadError :=
  (⟨(loadHidden sd 0 net.hidden_layers).1,
    (net.output.load ParamKey.outputWeight ParamKey.outputBias sd).1⟩,
   (loadHidden sd 0 net.hidden_layers).2 ++
   (net.output.load ParamKey.outputWeight ParamKey.outputBias sd).2 ++
   ((sd.map Prod.fst).filter (fun k => decide (k ∉ net.keyList))).map
     LoadError.unexpectedKey)

/-- The `(in_features, out_features)` pairs of the hidden layers built from an
input width and the list of hidden widths: consecutive widths chained, the
first layer fed by the input width. -/
def archSizes (nIn : Nat) : List Nat → List (Nat × Nat)
  | [] => []
  | h :: hs => (nIn, h) :: archSizes h hs

/-- A freshly constructed `Linear` layer; `d` stands for the framework's
initial parameter values (they are irrelevant to every claim, since the loader
overwrites them). -/
def mkLinear {α : Type} (nIn nOut : Nat) (d : α) : Linear α :=
  ⟨nIn, nOut, List.replicate (nOut * nIn) d, List.replicate nOut d⟩

/-- Modelled from the spec: `fc_model.Network(input_size, output_size,
hidden_layers)` is imported by the saving/loading notebook but its file is not
among the sources; §3 of the spec ("a loader that first reconstructs a network
of the recorded shape") together with the module structures the notebook
prints (`Network(784, 10, [512, 256, 128])` and `Network(784, 10,
[400, 200, 100])`, each showing hidden `Linear` layers chained through the
consecutive widths and an output layer fed by the last width) pin the
construction down.  An empty hidden-width list crashes the Python constructor
(`hidden_layers[0]`), so that case is excluded by hypothesis wherever it
matters; here the output layer falls back to the input width. -/
def Network.create {α : Type} (input_size output_size : Nat) (hidden : List Nat)
    (d : α) : Network α :=
  { hidden_layers := (archSizes input_size hidden).map (fun p => mkLinear p.1 p.2 d),
    output := mkLinear (hidden.getLastD input_size) output_size d }

/-- The checkpoint record of the saving/loading notebook: exactly the four
fields `input_size`, `output_size`, `hidden_layers`, `state_dict`. -/
structure Checkpoint (α : Type) where
  input_size : Nat
  output_size : Nat
  hidden_layers : List Nat
  state_dict : List (ParamKey × Tensor α)
deriving DecidableEq

/-- The checkpoint dictionary built before the second `torch.save`: the given
input/output sizes, the `out_features` of each hidden layer, and the model's
`state_dict`. -/
def mkCheckpoint {α : Type} (input_size output_size : Nat) (net : Network α) :
    Checkpoint α :=
  { input_size, output_size,
    hidden_layers := net.hidden_layers.map (fun l => l.out_features),
    state_dict := net.state_dict }

/-- `load_checkpoint`: rebuild a network from the recorded
`input_size`/`output_size`/`hidden_layers` and load the recorded `state_dict`
into it (`torch.load` is the identity on the record, so the file path is
elided).  `d` is the fresh network's initial parameter value. -/
def load_checkpoint {α : Type} (d : α) (c : Checkpoint α) :
    Network α × List LoadError :=
  (Network.create c.input_size c.output_size c.hidden_layers d).loadStateDict
    c.state_dict

/-- The network has the architecture `(nIn, nOut, hs)` and its parameter lists
have the lengths their shapes declare. -/
def Network.hasArch {α : Type} (net : Network α) (nIn nOut : Nat)
    (hs : List Nat) : Prop :=
  net.hidden_layers.map Linear.sizes = archSizes nIn hs ∧
  net.output.in_features = hs.getLastD nIn ∧
  net.output.out_features = nOut ∧
  (∀ l ∈ net.hidden_layers,
    l.weight.length = l.out_features * l.in_features ∧
    l.bias.length = l.out_features) ∧
  net.output.weight.length = net.output.out_features * net.output.in_features ∧
  net.output.bias.length = net.output.out_features

/-! ### Lookup lemmas for `state_dict` -/

theorem archSizes_map_snd (hs : List Nat) :
    ∀ nIn, (archSizes nIn hs).map Prod.snd = hs := by
  induction hs with
  | nil => intro nIn; rfl
  | cons h t ih => intro nIn; simp [archSizes, ih]

theorem archSizes_length (hs : List Nat) :
    ∀ nIn, (archSizes nIn hs).length = hs.length := by
  induction hs with
  | nil => intro nIn; rfl
  | cons h t ih => intro nIn; simp [archSizes, ih]

theorem lookupT_hiddenW {α : Type} (rest : List (ParamKey × Tensor α))
    (hrest : ∀ n, lookupT (ParamKey.hiddenWeight n) rest = none)
    (ls : List (Linear α)) :
    ∀ i j, lookupT (ParamKey.hiddenWeight (i + j)) (hiddenEntries i ls ++ rest) =
      (ls[j]?).map Linear.weightT := by
  induction ls with
  | nil => intro i j; simpa [hiddenEntries] using hrest (i + j)
  | cons l lt ih =>
    intro i j
    cases j with
    | zero => simp [hiddenEntries, lookupT]
    | succ j =>
      have h := ih (i + 1) j
      rw [show i + 1 + j = i + (j + 1) from by omega] at h
      simpa [hiddenEntries, lookupT] using h

theorem lookupT_hiddenB {α : Type} (rest : List (ParamKey × Tensor α))
    (hrest : ∀ n, lookupT (ParamKey.hiddenBias n) rest = none)
    (ls : List (Linear α)) :
    ∀ i j, lookupT (ParamKey.hiddenBias (i + j)) (hiddenEntries i ls ++ rest) =
      (ls[j]?).map Linear.biasT := by
  induction ls with
  | nil => intro i j; simpa [hiddenEntries] using hrest (i + j)
  | cons l lt ih =>
    intro i j
    cases j with
    | zero => simp [hiddenEntries, lookupT]
    | succ j =>
      have h := ih (i + 1) j
      rw [show i + 1 + j = i + (j + 1) from by omega] at h
      simpa [hiddenEntries, lookupT] using h

theorem lookupT_skip_hidden {α : Type} (k : ParamKey)
    (hk : ∀ n, k ≠ ParamKey.hiddenWeight n ∧ k ≠ ParamKey.hiddenBias n)
    (ls : List (Linear α)) (rest : List (ParamKey × Tensor α)) :
    ∀ i, lookupT k (hiddenEntries i ls ++ rest) = lookupT k rest := by
  induction ls with
  | nil => intro i; rfl
  | cons l lt ih =>
    intro i
    simp only [hiddenEntries, List.cons_append, lookupT, ih]
    rw [if_neg (fun h => (hk i).1 h.symm), if_neg (fun h => (hk i).2 h.symm)]
    exact ih (i + 1)

theorem state_dict_lookup_w {α : Type} (net : Network α) (j : Nat) :
    lookupT (ParamKey.hiddenWeight j) net.state_dict =
      (net.hidden_layers[j]?).map Linear.weightT := by
  have h := lookupT_hiddenW
    [(ParamKey.outputWeight, net.output.weightT),
     (ParamKey.outputBias, net.output.biasT)]
    (fun n => by simp [lookupT]) net.hidden_layers 0 j
  simpa [Network.state_dict] using h

theorem state_dict_lookup_b {α : Type} (net : Network α) (j : Nat) :
    lookupT (ParamKey.hiddenBias j) net.state_dict =
      (net.hidden_layers[j]?).map Linear.biasT := by
  have h := lookupT_hiddenB
    [(ParamKey.outputWeight, net.output.weightT),
     (ParamKey.outputBias, net.output.biasT)]
    (fun n => by simp [lookupT]) net.hidden_layers 0 j
  simpa [Network.state_dict] using h

theorem state_dict_lookup_ow {α : Type} (net : Network α) :
    lookupT ParamKey.outputWeight net.state_dict = some net.output.weightT := by
  rw [Network.state_dict, lookupT_skip_hidden _ (fun n => by simp)]
  simp [lookupT]

theorem state_dict_lookup_ob {α : Type} (net : Network α) :
    lookupT ParamKey.outputBias net.state_dict = some net.output.biasT := by
  rw [Network.state_dict, lookupT_skip_hidden _ (fun n => by simp)]
  simp [lookupT]

/-! ### Reconstruction: loading a state dict into a network of the same
architecture restores the recorded parameters -/

theorem loadHidden_of_lookups {α : Type} (sd : List (ParamKey × Tensor α))
    (cs : List (Linear α)) :
    ∀ (os : List (Linear α)) (i : Nat),
      cs.map Linear.sizes = os.map Linear.sizes →
      (∀ j, lookupT (ParamKey.hiddenWeight (i + j)) sd = (os[j]?).map Linear.weightT) →
      (∀ j, lookupT (ParamKey.hiddenBias (i + j)) sd = (os[j]?).map Linear.biasT) →
      loadHidden sd i cs = (os, []) := by
  induction cs with
  | nil =>
    intro os i hsz _ _
    have hos : os = [] := by simpa using hsz.symm
    subst hos; rfl
  | cons c ct ih =>
    intro os i hsz hw hb
    cases os with
    | nil => simp at hsz
    | cons o ot =>
      simp only [List.map_cons, List.cons.injEq] at hsz
      obtain ⟨hco, htl⟩ := hsz
      have hin : c.in_features = o.in_features := congrArg Prod.fst hco
      have hout : c.out_features = o.out_features := congrArg Prod.snd hco
      have hw0 : lookupT (ParamKey.hiddenWeight i) sd = some o.weightT := by
        simpa using hw 0
      have hb0 : lookupT (ParamKey.hiddenBias i) sd = some o.biasT := by
        simpa using hb 0
      have hrec : loadHidden sd (i + 1) ct = (ot, []) := by
        refine ih ot (i + 1) htl (fun j => ?_) (fun j => ?_)
        · have h := hw (j + 1)
          rw [show i + (j + 1) = i + 1 + j from by omega] at h
          simpa using h
        · have h := hb (j + 1)
          rw [show i + (j + 1) = i + 1 + j from by omega] at h
          simpa using h
      simp [loadHidden, Linear.load, loadParam, hw0, hb0, hrec,
        Linear.weightT, Linear.biasT, hin, hout]

def hiddenKeyList : Nat → Nat → List ParamKey
  | _, 0 => []
  | i, n + 1 =>
    ParamKey.hiddenWeight i :: ParamKey.hiddenBias i :: hiddenKeyList (i + 1) n

theorem hiddenEntries_keys {α : Type} (ls : List (Linear α)) :
    ∀ i, (hiddenEntries i ls).map Prod.fst = hiddenKeyList i ls.length := by
  induction ls with
  | nil => intro i; rfl
  | cons l lt ih => intro i; simp [hiddenEntries, hiddenKeyList, ih]

theorem keyList_eq {α : Type} (net : Network α) :
    net.keyList = hiddenKeyList 0 net.hidden_layers.length ++
      [ParamKey.outputWeight, ParamKey.outputBias] := by
  simp [Network.keyList, Network.state_dict, hiddenEntries_keys]

theorem create_sizes {α : Type} (nIn nOut : Nat) (hs : List Nat) (d : α) :
    (Network.create nIn nOut hs d).hidden_layers.map Linear.sizes =
      archSizes nIn hs := by
  simp [Network.create, List.map_map, Function.comp_def, Linear.sizes, mkLinear]

theorem load_roundtrip_aux {α : Type} (nIn nOut : Nat) (hs : List Nat)
    (net : Network α) (d : α) (h : net.hasArch nIn nOut hs) :
    load_checkpoint d (mkCheckpoint nIn nOut net) = (net, []) := by
  obtain ⟨h1, h2, h3, -, -, -⟩ := h
  have hwidths : net.hidden_layers.map (fun l => l.out_features) = hs := by
    have h := congrArg (List.map Prod.snd) h1
    simpa [List.map_map, Function.comp_def, Linear.sizes, archSizes_map_snd]
      using h
  have hLH : loadHidden net.state_dict 0
      (Network.create nIn nOut hs d).hidden_layers = (net.hidden_layers, []) := by
    refine loadHidden_of_lookups _ _ net.hidden_layers 0 ?_
      (fun j => by simpa using state_dict_lookup_w net j)
      (fun j => by simpa using state_dict_lookup_b net j)
    rw [create_sizes, h1]
  have hOut : (Network.create nIn nOut hs d).output.load
      ParamKey.outputWeight ParamKey.outputBias net.state_dict =
      (net.output, []) := by
    simp only [Linear.load, loadParam, state_dict_lookup_ow, state_dict_lookup_ob,
      Network.create, mkLinear, Linear.weightT, Linear.biasT]
    rw [if_pos (by rw [h2, h3]), if_pos (by rw [h3])]
    rw [← h2, ← h3]
    rfl
  have hlen : (Network.create nIn nOut hs d).hidden_layers.length =
      net.hidden_layers.length := by
    have hn : net.hidden_layers.length = hs.length := by
      have h := congrArg List.length h1
      simpa [archSizes_length] using h
    simp [Network.create, archSizes_length, hn]
  have hU : ((net.state_dict.map Prod.fst).filter
      (fun k => decide (k ∉ (Network.create nIn nOut hs d).keyList))).map
        LoadError.unexpectedKey = [] := by
    have hkeys : net.state_dict.map Prod.fst =
        (Network.create nIn nOut hs d).keyList := by
      show net.keyList = _
      rw [keyList_eq, keyList_eq, hlen]
    rw [hkeys, List.map_eq_nil_iff, List.filter_eq_nil_iff]
    intro k hk
    simp only [decide_eq_true_eq, Decidable.not_not]
    exact hk
  simp only [load_checkpoint, mkCheckpoint]
  rw [hwidths, Network.loadStateDict, hLH, hOut, hU]
  rfl

instance instDecidableHasArch {α : Type} (net : Network α) (nIn nOut : Nat)
    (hs : List Nat) : Decidable (net.hasArch nIn nOut hs) := by
  unfold Network.hasArch
  infer_instance

/-! ### Claims about checkpoint saving and loading -/

/-- C1: for every network architecture (input size, output size, non-empty
ordered hidden-layer widths) and every assignment of parameter values, saving
the checkpoint record `{input_size, output_size, hidden_layers, state_dict}`
built from that network and then calling `load_checkpoint` on the saved record
returns the original network — identical layer widths, numerically identical
parameter values — and no load error is raised. -/
theorem c1_checkpoint_roundtrip {α : Type} (nIn nOut : Nat) (hs : List Nat)
    (net : Network α) (d : α) (hne : hs ≠ [])
    (h : net.hasArch nIn nOut hs) :
    load_checkpoint d (mkCheckpoint nIn nOut net) = (net, []) :=
  load_roundtrip_aux nIn nOut hs net d h

/-- Witness for C1 at a concrete network of architecture `(2, 1, [2])`. -/
theorem c1_checkpoint_roundtrip_witness :
    ([2] ≠ ([] : List Nat)) ∧
    (Network.mk [⟨2, 2, [1, 2, 3, 4], [5, 6]⟩] ⟨2, 1, [7, 8], [9]⟩ :
      Network Int).hasArch 2 1 [2] ∧
    load_checkpoint 0 (mkCheckpoint 2 1
      (Network.mk [⟨2, 2, [1, 2, 3, 4], [5, 6]⟩] ⟨2, 1, [7, 8], [9]⟩ :
        Network Int)) =
      (Network.mk [⟨2, 2, [1, 2, 3, 4], [5, 6]⟩] ⟨2, 1, [7, 8], [9]⟩, []) :=
  ⟨by decide, by decide,
    c1_checkpoint_roundtrip 2 1 [2] _ 0 (by decide) (by decide)⟩

/-- C5: for every self-consistent checkpoint record (recorded widths and
stored tensors coming from one network), `load_checkpoint` rebuilds the
network from `input_size`/`output_size`/`hidden_layers`, so the reconstructed
widths exactly match the recorded widths, the shape-mismatch branch of the
subsequent `load_state_dict` is never taken, and the load succeeds with no
error. -/
theorem c5_load_invariant {α : Type} (nIn nOut : Nat) (hs : List Nat)
    (net : Network α) (d : α) (hne : hs ≠ [])
    (h : net.hasArch nIn nOut hs) :
    (load_checkpoint d (mkCheckpoint nIn nOut net)).1.hidden_layers.map
        (fun l => l.out_features) =
      (mkCheckpoint nIn nOut net).hidden_layers ∧
    (load_checkpoint d (mkCheckpoint nIn nOut net)).2 = [] := by
  have h0 := load_roundtrip_aux nIn nOut hs net d h
  rw [h0]
  exact ⟨rfl, rfl⟩

/-- Witness for C5 at a concrete network of architecture `(3, 2, [1])`. -/
theorem c5_load_invariant_witness :
    ([1] ≠ ([] : List Nat)) ∧
    (Network.mk [⟨3, 1, [1, 2, 3], [4]⟩] ⟨1, 2, [5, 6], [7, 8]⟩ :
      Network Int).hasArch 3 2 [1] ∧
    ((load_checkpoint 0 (mkCheckpoint 3 2
        (Network.mk [⟨3, 1, [1, 2, 3], [4]⟩] ⟨1, 2, [5, 6], [7, 8]⟩ :
          Network Int))).1.hidden_layers.map (fun l => l.out_features) =
      (mkCheckpoint 3 2
        (Network.mk [⟨3, 1, [1, 2, 3], [4]⟩] ⟨1, 2, [5, 6], [7, 8]⟩ :
          Network Int)).hidden_layers ∧
     (load_checkpoint 0 (mkCheckpoint 3 2
        (Network.mk [⟨3, 1, [1, 2, 3], [4]⟩] ⟨1, 2, [5, 6], [7, 8]⟩ :
          Network Int))).2 = []) :=
  ⟨by decide, by decide,
    c5_load_invariant 3 2 [1] _ 0 (by decide) (by decide)⟩

/-! ### The failure path: loading into a network of the wrong shape -/

/-- The width of the layer feeding hidden layer `j`: the input width for the
first layer, otherwise the previous hidden width. -/
def prevW (nIn : Nat) (hs : List Nat) : Nat → Nat
  | 0 => nIn
  | j + 1 => hs.getD j 0

theorem prevW_cons (a : Nat) (t : List Nat) (j : Nat) :
    prevW a t j = (a :: t).getD j 0 := by
  cases j <;> simp [prevW]

theorem archSizes_getElem? (hs : List Nat) :
    ∀ (nIn j : Nat), (archSizes nIn hs)[j]? =
      (hs[j]?).map (fun h => (prevW nIn hs j, h)) := by
  induction hs with
  | nil => intro nIn j; rfl
  | cons a t ih =>
    intro nIn j
    cases j with
    | zero => simp [archSizes, prevW]
    | succ j =>
      simp only [archSizes, List.getElem?_cons_succ, ih a j]
      rw [prevW_cons]
      rfl

theorem prevW_eq_of_take (nIn : Nat) (as bs : List Nat) (j : Nat)
    (h : as.take j = bs.take j) : prevW nIn as j = prevW nIn bs j := by
  cases j with
  | zero => rfl
  | succ j =>
    have hj : as[j]? = bs[j]? := by
      rw [← List.getElem?_take_of_lt (l := as) (Nat.lt_succ_self j),
        ← List.getElem?_take_of_lt (l := bs) (Nat.lt_succ_self j), h]
    simp [prevW, List.getD_eq_getElem?_getD, hj]

theorem lists_first_diff :
    ∀ (as bs : List Nat), as.length = bs.length → as ≠ bs →
      ∃ j a b, as[j]? = some a ∧ bs[j]? = some b ∧ a ≠ b ∧
        as.take j = bs.take j := by
  intro as
  induction as with
  | nil =>
    intro bs hlen hne
    cases bs with
    | nil => exact absurd rfl hne
    | cons b bt => simp at hlen
  | cons a at' ih =>
    intro bs hlen hne
    cases bs with
    | nil => simp at hlen
    | cons b bt =>
      by_cases hab : a = b
      · subst hab
        have htl : at' ≠ bt := fun h => hne (by rw [h])
        obtain ⟨j, x, y, h1, h2, h3, h4⟩ := ih bt (by simpa using hlen) htl
        exact ⟨j + 1, x, y, by simpa using h1, by simpa using h2, h3,
          by simp [h4]⟩
      · exact ⟨0, a, b, by simp, by simp, hab, rfl⟩

theorem loadHidden_err {α : Type} (sd : List (ParamKey × Tensor α))
    (cs : List (Linear α)) :
    ∀ (i j : Nat) (c : Linear α), cs[j]? = some c →
      (c.load (ParamKey.hiddenWeight (i + j)) (ParamKey.hiddenBias (i + j))
        sd).2 ≠ [] →
      (loadHidden sd i cs).2 ≠ [] := by
  induction cs with
  | nil => intro i j c h; simp at h
  | cons c0 ct ih =>
    intro i j c hget herr
    cases j with
    | zero =>
      simp only [List.getElem?_cons_zero, Option.some.injEq] at hget
      subst hget
      simp only [loadHidden]
      intro hc
      rw [List.append_eq_nil] at hc
      exact herr (by simpa using hc.1)
    | succ j =>
      have hrec := ih (i + 1) j c (by simpa using hget)
        (by rw [show i + 1 + j = i + (j + 1) from by omega]; exact herr)
      simp only [loadHidden]
      intro hc
      rw [List.append_eq_nil] at hc
      exact hrec hc.2

theorem lookupT_some_mem {α : Type} (k : ParamKey) :
    ∀ (sd : List (ParamKey × Tensor α)) (t : Tensor α),
      lookupT k sd = some t → k ∈ sd.map Prod.fst := by
  intro sd
  induction sd with
  | nil => intro t h; simp [lookupT] at h
  | cons p rest ih =>
    intro t h
    obtain ⟨k0, t0⟩ := p
    by_cases hk : k0 = k
    · simp [hk]
    · rw [lookupT, if_neg hk] at h
      simpa using Or.inr (ih t h)

theorem mem_hiddenKeyList_lt :
    ∀ (n i j : Nat), ParamKey.hiddenWeight j ∈ hiddenKeyList i n → j < i + n := by
  intro n
  induction n with
  | zero => intro i j h; simp [hiddenKeyList] at h
  | succ n ih =>
    intro i j h
    simp only [hiddenKeyList, List.mem_cons] at h
    rcases h with h | h | h
    · injection h with h; omega
    · exact absurd h (by simp)
    · have := ih (i + 1) j h; omega

theorem create_getElem? {α : Type} (nIn nOut : Nat) (hs : List Nat) (d : α)
    (j : Nat) :
    (Network.create nIn nOut hs d).hidden_layers[j]? =
      (hs[j]?).map (fun h => mkLinear (prevW nIn hs j) h d) := by
  simp [Network.create, List.getElem?_map, archSizes_getElem?, Option.map_map,
    Function.comp_def]

/-- C2 (amended): loading a checkpoint's state dict into a target network
whose hidden-layer widths differ from the recorded widths always raises an
error — the error list of `load_state_dict` is non-empty, so the strict loader
raises `RuntimeError` instead of silently truncating or padding. -/
theorem c2_mismatched_load_fails {α : Type} (nIn nOut : Nat)
    (hsT hsC : List Nat) (d : α) (net : Network α)
    (hTne : hsT ≠ []) (hCne : hsC ≠ []) (hdiff : hsT ≠ hsC)
    (h : net.hasArch nIn nOut hsC) :
    ((Network.create nIn nOut hsT d).loadStateDict
      (mkCheckpoint nIn nOut net).state_dict).2 ≠ [] := by
  obtain ⟨h1, h2, h3, -, -, -⟩ := h
  have hsd : (mkCheckpoint nIn nOut net).state_dict = net.state_dict := rfl
  rw [hsd]
  have hlenC : net.hidden_layers.length = hsC.length := by
    have h := congrArg List.length h1
    simpa [archSizes_length] using h
  have hTlen : (Network.create nIn nOut hsT d).hidden_layers.length =
      hsT.length := by
    simp [Network.create, archSizes_length]
  have hnetget : ∀ (j : Nat) (p : Nat × Nat), (archSizes nIn hsC)[j]? = some p →
      ∃ l : Linear α, net.hidden_layers[j]? = some l ∧ Linear.sizes l = p := by
    intro j p hp
    rw [← h1, List.getElem?_map] at hp
    obtain ⟨l, hl, hlp⟩ := Option.map_eq_some'.mp hp
    exact ⟨l, hl, hlp⟩
  rcases Nat.lt_trichotomy hsT.length hsC.length with hlt | heq | hgt
  · -- the target has fewer hidden layers: the checkpoint entry for layer
    -- `hsT.length` is an unexpected key of the target
    set n := hsT.length with hn
    have hmemn : n < net.hidden_layers.length := by omega
    have hlook : lookupT (ParamKey.hiddenWeight n) net.state_dict =
        some (net.hidden_layers[n].weightT) := by
      rw [state_dict_lookup_w, (List.getElem?_eq_some_getElem_iff _ _ hmemn).mpr
        trivial]
      rfl
    have hmem : ParamKey.hiddenWeight n ∈ net.state_dict.map Prod.fst :=
      lookupT_some_mem _ _ _ hlook
    have hnot : ParamKey.hiddenWeight n ∉
        (Network.create nIn nOut hsT d).keyList := by
      rw [keyList_eq, hTlen]
      intro hmem
      rcases List.mem_append.mp hmem with hmem | hmem
      · have := mem_hiddenKeyList_lt _ _ _ hmem; omega
      · simp at hmem
    intro hc
    simp only [Network.loadStateDict] at hc
    rw [List.append_eq_nil, List.append_eq_nil] at hc
    have hfil := hc.2
    rw [List.map_eq_nil_iff, List.filter_eq_nil_iff] at hfil
    exact hfil _ hmem (by simpa using hnot)
  · -- equal layer counts: the first differing width produces a size mismatch
    obtain ⟨j, a, b, hja, hjb, hab, htake⟩ := lists_first_diff hsT hsC heq hdiff
    have htget : (Network.create nIn nOut hsT d).hidden_layers[j]? =
        some (mkLinear (prevW nIn hsT j) a d) := by
      rw [create_getElem?, hja]; rfl
    obtain ⟨l, hlget, hlsz⟩ := hnetget j (prevW nIn hsC j, b)
      (by rw [archSizes_getElem?, hjb]; rfl)
    have hlin : l.in_features = prevW nIn hsC j := congrArg Prod.fst hlsz
    have hlout : l.out_features = b := congrArg Prod.snd hlsz
    have hlook : lookupT (ParamKey.hiddenWeight j) net.state_dict =
        some l.weightT := by
      rw [state_dict_lookup_w, hlget]; rfl
    have hprev := prevW_eq_of_take nIn hsT hsC j htake
    have herr : ((mkLinear (prevW nIn hsT j) a d).load
        (ParamKey.hiddenWeight (0 + j)) (ParamKey.hiddenBias (0 + j))
        net.state_dict).2 ≠ [] := by
      rw [Nat.zero_add]
      simp only [Linear.load, loadParam, mkLinear, hlook]
      rw [if_neg]
      · simp
      · simp only [Linear.weightT, List.cons.injEq]
        intro hcon
        exact hab ((hlout ▸ hcon.1).symm)
    have hload := loadHidden_err net.state_dict
      (Network.create nIn nOut hsT d).hidden_layers 0 j _ htget herr
    intro hc
    simp only [Network.loadStateDict] at hc
    rw [List.append_eq_nil, List.append_eq_nil] at hc
    exact hload hc.1.1
  · -- the target has more hidden layers: its extra layer finds no entry
    set m := hsC.length with hm
    have hjm : m < hsT.length := hgt
    obtain ⟨a, ha⟩ : ∃ a, hsT[m]? = some a := by
      exact ⟨hsT[m], (List.getElem?_eq_some_getElem_iff _ _ hjm).mpr trivial⟩
    have htget : (Network.create nIn nOut hsT d).hidden_layers[m]? =
        some (mkLinear (prevW nIn hsT m) a d) := by
      rw [create_getElem?, ha]; rfl
    have hlook : lookupT (ParamKey.hiddenWeight m) net.state_dict = none := by
      rw [state_dict_lookup_w, List.getElem?_eq_none_iff.mpr (by omega)]
      rfl
    have herr : ((mkLinear (prevW nIn hsT m) a d).load
        (ParamKey.hiddenWeight (0 + m)) (ParamKey.hiddenBias (0 + m))
        net.state_dict).2 ≠ [] := by
      rw [Nat.zero_add]
      simp only [Linear.load, loadParam, mkLinear, hlook]
      simp
    have hload := loadHidden_err net.state_dict
      (Network.create nIn nOut hsT d).hidden_layers 0 m _ htget herr
    intro hc
    simp only [Network.loadStateDict] at hc
    rw [List.append_eq_nil, List.append_eq_nil] at hc
    exact hload hc.1.1

/-- Recognizer for the size-mismatch error kind. -/
def isSizeMismatch : LoadError → Bool
  | LoadError.sizeMismatch _ => true
  | _ => false

/-- Counterexample to C2 as stated: the claim promises a shape-mismatch error
for every target whose hidden widths differ from the recorded ones, but a
checkpoint recorded from widths `[1]` loaded into a target of widths `[1, 1]`
fails with missing-key errors only — every tensor present in the checkpoint
has a matching shape in the target, so no size-mismatch error is raised, yet
the load still fails. -/
theorem c2_counterexample :
    (((Network.create 1 1 [1, 1] (0 : Int)).loadStateDict
        (mkCheckpoint 1 1
          (Network.mk [⟨1, 1, [3], [4]⟩] ⟨1, 1, [5], [6]⟩)).state_dict).2 ≠ [] ∧
     ((Network.create 1 1 [1, 1] (0 : Int)).loadStateDict
        (mkCheckpoint 1 1
          (Network.mk [⟨1, 1, [3], [4]⟩] ⟨1, 1, [5], [6]⟩)).state_dict).2.filter
        isSizeMismatch = []) ∧
    (Network.mk [⟨1, 1, [3], [4]⟩] ⟨1, 1, [5], [6]⟩ :
      Network Int).hasArch 1 1 [1] ∧ ([1, 1] : List Nat) ≠ [1] := by
  decide

/-- Witness for the amended C2 at widths `[2]` (checkpoint) versus `[1]`
(target). -/
theorem c2_mismatched_load_fails_witness :
    (Network.mk [⟨1, 2, [3, 4], [5, 6]⟩] ⟨2, 1, [7, 8], [9]⟩ :
      Network Int).hasArch 1 1 [2] ∧
    ((Network.create 1 1 [1] (0 : Int)).loadStateDict
      (mkCheckpoint 1 1
        (Network.mk [⟨1, 2, [3, 4], [5, 6]⟩] ⟨2, 1, [7, 8], [9]⟩)).state_dict).2
      ≠ [] :=
  ⟨by decide,
    c2_mismatched_load_fails 1 1 [1] [2] 0 _ (by decide) (by decide)
      (by decide) (by decide)⟩

/-- Counterexample to C9 as stated: loading the state dict of a network of
widths `[2]` into a target of widths `[3]` (both `1 → 1`) raises shape-mismatch
errors, yet the target's output-layer bias — whose shape `[1]` coincides
between the two architectures — does not retain its previous value: it is
overwritten with the checkpoint's value before the error is raised. -/
theorem c9_counterexample :
    (((Network.create 1 1 [3] (0 : Int)).loadStateDict
        (Network.mk [⟨1, 2, [1, 2], [3, 4]⟩] ⟨2, 1, [5, 6], [7]⟩ :
          Network Int).state_dict).2.filter isSizeMismatch ≠ [] ∧
     ((Network.create 1 1 [3] (0 : Int)).loadStateDict
        (Network.mk [⟨1, 2, [1, 2], [3, 4]⟩] ⟨2, 1, [5, 6], [7]⟩ :
          Network Int).state_dict).1.output.bias ≠
       (Network.create 1 1 [3] (0 : Int)).output.bias) := by
  decide

/-- C9 (amended): a failed `load_state_dict` is not atomic.  A parameter whose
stored tensor has a mismatched shape keeps its old value, but a parameter
whose stored tensor has the matching shape — such as the output-layer bias
when only hidden widths differ — is overwritten with the stored value before
the error is raised. -/
theorem c9_partial_load {α : Type} (tgt : Network α)
    (sd : List (ParamKey × Tensor α)) (tb tw : Tensor α)
    (hb : lookupT ParamKey.outputBias sd = some tb)
    (hbs : tb.shape = [tgt.output.out_features])
    (hw : lookupT ParamKey.outputWeight sd = some tw)
    (hws : tw.shape ≠ [tgt.output.out_features, tgt.output.in_features]) :
    ((tgt.loadStateDict sd).1).output.bias = tb.data ∧
    ((tgt.loadStateDict sd).1).output.weight = tgt.output.weight ∧
    (tgt.loadStateDict sd).2 ≠ [] := by
  simp only [Network.loadStateDict, Linear.load, loadParam, hb, hw]
  rw [if_pos hbs, if_neg hws]
  refine ⟨rfl, rfl, ?_⟩
  intro hc
  rw [List.append_eq_nil, List.append_eq_nil] at hc
  exact absurd hc.1.2 (by simp)

/-- Witness for the amended C9: the output weight mismatches (and stays), the
output bias matches (and is overwritten), and the load still fails. -/
theorem c9_partial_load_witness :
    (((Network.mk [] ⟨2, 1, [0, 0], [0]⟩ : Network Int).loadStateDict
        [(ParamKey.outputWeight, ⟨[1, 3], [9, 9, 9]⟩),
         (ParamKey.outputBias, ⟨[1], [42]⟩)]).1.output.bias = [42] ∧
     ((Network.mk [] ⟨2, 1, [0, 0], [0]⟩ : Network Int).loadStateDict
        [(ParamKey.outputWeight, ⟨[1, 3], [9, 9, 9]⟩),
         (ParamKey.outputBias, ⟨[1], [42]⟩)]).1.output.weight = [0, 0] ∧
     ((Network.mk [] ⟨2, 1, [0, 0], [0]⟩ : Network Int).loadStateDict
        [(ParamKey.outputWeight, ⟨[1, 3], [9, 9, 9]⟩),
         (ParamKey.outputBias, ⟨[1], [42]⟩)]).2 ≠ []) :=
  c9_partial_load _ _ ⟨[1], [42]⟩ ⟨[1, 3], [9, 9, 9]⟩ (by decide) (by decide)
    (by decide) (by decide)

/-! ### Persisted artifacts of the saving/loading notebook -/

/-- A value handed to `torch.save`: either a bare `state_dict` (the
notebook's first save) or the four-field checkpoint record (its second
save). -/
inductive SavedArtifact (α : Type) where
  | stateDictOnly (sd : List (ParamKey × Tensor α))
  | checkpointRecord (c : Checkpoint α)
deriving DecidableEq

/-- The two `torch.save` calls of the saving/loading notebook, in program
order: first `torch.save(model.state_dict(), 'checkpoint.pth')`, then
`torch.save(checkpoint, 'checkpoint.pth')` with the four-field record built
for input size 784 and output size 10. -/
def part000Saves {α : Type} (model : Network α) : List (SavedArtifact α) :=
  [SavedArtifact.stateDictOnly model.state_dict,
   SavedArtifact.checkpointRecord (mkCheckpoint 784 10 model)]

/-- Whether a saved artifact is the four-field checkpoint record. -/
def isFourFieldRecord {α : Type} : SavedArtifact α → Bool
  | SavedArtifact.checkpointRecord _ => true
  | SavedArtifact.stateDictOnly _ => false

/-- Counterexample to C3 as stated: not every write of the checkpoint file
serializes the four-field record — the notebook's first save persists the bare
parameter mapping alone, so `isFourFieldRecord` fails on the first artifact
written for the trained `Network(784, 10, [512, 256, 128])`. -/
theorem c3_counterexample :
    (part000Saves (Network.create 784 10 [512, 256, 128] (0 : Int))).all
      isFourFieldRecord = false := rfl

/-- C3 (amended): the program persists exactly two artifacts, both via the
generic serialization call: first the bare parameter mapping
(`model.state_dict()` alone), then the checkpoint record with exactly the
four fields `{input_size = 784, output_size = 10, hidden_layers = the model's
hidden out_features, state_dict = the model's parameter mapping}`.  Every
artifact written is of one of these two shapes. -/
theorem c3_saved_artifacts {α : Type} (model : Network α)
    (a : SavedArtifact α) (ha : a ∈ part000Saves model) :
    a = SavedArtifact.stateDictOnly model.state_dict ∨
    a = SavedArtifact.checkpointRecord
      { input_size := 784, output_size := 10,
        hidden_layers := model.hidden_layers.map (fun l => l.out_features),
        state_dict := model.state_dict } := by
  simp only [part000Saves, List.mem_cons, List.not_mem_nil, or_false] at ha
  rcases ha with ha | ha
  · exact Or.inl ha
  · exact Or.inr (by rw [ha]; rfl)

/-- Witness for the amended C3 at a concrete one-hidden-layer model. -/
theorem c3_saved_artifacts_witness :
    SavedArtifact.stateDictOnly
        (Network.mk [⟨1, 1, [2], [3]⟩] ⟨1, 1, [4], [5]⟩ :
          Network Int).state_dict ∈
      part000Saves (Network.mk [⟨1, 1, [2], [3]⟩] ⟨1, 1, [4], [5]⟩) ∧
    (SavedArtifact.stateDictOnly
        (Network.mk [⟨1, 1, [2], [3]⟩] ⟨1, 1, [4], [5]⟩ :
          Network Int).state_dict =
      SavedArtifact.stateDictOnly
        (Network.mk [⟨1, 1, [2], [3]⟩] ⟨1, 1, [4], [5]⟩ :
          Network Int).state_dict ∨
     SavedArtifact.stateDictOnly
        (Network.mk [⟨1, 1, [2], [3]⟩] ⟨1, 1, [4], [5]⟩ :
          Network Int).state_dict =
      SavedArtifact.checkpointRecord
        { input_size := 784, output_size := 10,
          hidden_layers :=
            (Network.mk [⟨1, 1, [2], [3]⟩] ⟨1, 1, [4], [5]⟩ :
              Network Int).hidden_layers.map (fun l => l.out_features),
          state_dict :=
            (Network.mk [⟨1, 1, [2], [3]⟩] ⟨1, 1, [4], [5]⟩ :
              Network Int).state_dict }) :=
  ⟨by decide, c3_saved_artifacts _ _ (by decide)⟩

/-! ### The training loop of the training notebook

The loop body (`for images, labels in trainloader`) is embedded as the
sequence of operations it performs; each epoch runs the same body over every
batch of the loader. -/

/-- The operations of one training pass, in program order: flatten the batch,
`optimizer.zero_grad()`, `output = model(images)`, `loss = criterion(output,
labels)`, `loss.backward()`, `optimizer.step()`, `running_loss +=
loss.item()`. -/
inductive TrainEvent where
  | flattenBatch
  | zeroGrad
  | forwardPass
  | computeLoss
  | backwardPass
  | optimizerStep
  | accumulateLoss
deriving DecidableEq

/-- The trace of one training pass over a single batch. -/
def trainingPassTrace : List TrainEvent :=
  [TrainEvent.flattenBatch, TrainEvent.zeroGrad, TrainEvent.forwardPass,
   TrainEvent.computeLoss, TrainEvent.backwardPass, TrainEvent.optimizerStep,
   TrainEvent.accumulateLoss]

/-- The trace of one epoch: the training pass repeated over the loader's
batches, in order. -/
def epochTrace {β : Type} : List β → List TrainEvent
  | [] => []
  | _ :: bs => trainingPassTrace ++ epochTrace bs

/-- The trace of the whole training loop: `epochs` epochs over the batches. -/
def trainLoopTrace {β : Type} : Nat → List β → List TrainEvent
  | 0, _ => []
  | e + 1, bs => epochTrace bs ++ trainLoopTrace e bs

/-- `n` identical per-batch segments. -/
def batchBlocks : Nat → List TrainEvent
  | 0 => []
  | n + 1 => trainingPassTrace ++ batchBlocks n

theorem batchBlocks_add (a : Nat) :
    ∀ b, batchBlocks (a + b) = batchBlocks a ++ batchBlocks b := by
  induction a with
  | zero => intro b; simp [batchBlocks, Nat.zero_add]
  | succ a ih =>
    intro b
    rw [show a + 1 + b = (a + b) + 1 from by omega]
    simp [batchBlocks, ih]

theorem epochTrace_eq_blocks {β : Type} (bs : List β) :
    epochTrace bs = batchBlocks bs.length := by
  induction bs with
  | nil => rfl
  | cons b bt ih => simp [epochTrace, batchBlocks, ih]

/-- C6: the training loop is, for every epoch count and batch list, the
concatenation of identical per-batch segments, and within each segment the
pass clears gradients, runs the forward pass, computes the loss, runs the
backward pass and then takes exactly one optimizer step, in that order — in
particular no parameter update happens before the backward pass of the same
batch. -/
theorem c6_training_order {β : Type} (epochs : Nat) (batches : List β) :
    trainLoopTrace epochs batches = batchBlocks (epochs * batches.length) ∧
    trainingPassTrace.count TrainEvent.optimizerStep = 1 ∧
    trainingPassTrace.indexOf TrainEvent.zeroGrad <
      trainingPassTrace.indexOf TrainEvent.forwardPass ∧
    trainingPassTrace.indexOf TrainEvent.forwardPass <
      trainingPassTrace.indexOf TrainEvent.computeLoss ∧
    trainingPassTrace.indexOf TrainEvent.computeLoss <
      trainingPassTrace.indexOf TrainEvent.backwardPass ∧
    trainingPassTrace.indexOf TrainEvent.backwardPass <
      trainingPassTrace.indexOf TrainEvent.optimizerStep := by
  refine ⟨?_, by decide, by decide, by decide, by decide, by decide⟩
  induction epochs with
  | zero => simp [trainLoopTrace, batchBlocks]
  | succ e ih =>
    rw [show (e + 1) * batches.length = batches.length + e * batches.length
      from by ring]
    rw [batchBlocks_add]
    simp [trainLoopTrace, ih, epochTrace_eq_blocks]

/-! ### The validation loop of the inference notebook

The per-batch computation `ps = torch.exp(model(images)); top_p, top_class =
ps.topk(1, dim=1); equals = top_class == labels.view(*top_class.shape);
accuracy = torch.mean(equals.type(torch.FloatTensor))` is embedded over exact
rationals; the composite `torch.exp(model(images))` — a forward pass through
the classifier followed by exponentiation — is abstracted as a parameter
`psOf`, since these claims are about the accuracy arithmetic downstream of
it. -/

/-- Scan for the index of the largest value seen so far (`topk(1)`; a tie
keeps the earlier index). -/
def idxOfMaxAux : Nat → ℚ → Nat → List ℚ → Nat
  | best, _, _, [] => best
  | best, bv, i, x :: xs =>
    if bv < x then idxOfMaxAux i x (i + 1) xs
    else idxOfMaxAux best bv (i + 1) xs

/-- The index of the largest entry of a row: the `top_class` of
`ps.topk(1, dim=1)` for that row. -/
def idxOfMax : List ℚ → Nat
  | [] => 0
  | x :: xs => idxOfMaxAux 0 x 1 xs

/-- `equals = top_class == labels.view(*top_class.shape)`: one boolean per
example of the batch. -/
def batchEquals (ps : List (List ℚ)) (labels : List Nat) : List Bool :=
  List.zipWith (fun row lab => decide (idxOfMax row = lab)) ps labels

/-- `equals.type(torch.FloatTensor)` entrywise. -/
def boolToQ (b : Bool) : ℚ := if b then 1 else 0

/-- `torch.mean` of a boolean tensor after the float cast: the sum of the
0/1 entries over the number of entries. -/
def torchMean (bs : List Bool) : ℚ := (bs.map boolToQ).sum / bs.length

/-- The `accuracy` computed from one batch. -/
def batchAccuracy (ps : List (List ℚ)) (labels : List Nat) : ℚ :=
  torchMean (batchEquals ps labels)

/-- The number of examples of the batch whose top-1 predicted class equals
the true label (the claim's reading of the accuracy). -/
def topOneCorrectCount (ps : List (List ℚ)) (labels : List Nat) : Nat :=
  (batchEquals ps labels).count true

theorem sum_boolToQ : ∀ bs : List Bool,
    (bs.map boolToQ).sum = (bs.count true : ℚ) := by
  intro bs
  induction bs with
  | nil => simp
  | cons b bt ih =>
    cases b <;> simp [boolToQ, List.count_cons, ih] <;> push_cast <;> ring

/-- C7: for every batch, the accuracy the validation pass computes equals the
fraction of examples in the batch whose top-1 predicted class (the index of
the highest class probability, `topk(1, dim=1)` on the exponentiated model
output) equals the true label. -/
theorem c7_batch_accuracy (ps : List (List ℚ)) (labels : List Nat)
    (hlen : ps.length = labels.length) (hpos : 0 < ps.length) :
    batchAccuracy ps labels =
      (topOneCorrectCount ps labels : ℚ) / (ps.length : ℚ) := by
  unfold batchAccuracy torchMean topOneCorrectCount
  rw [sum_boolToQ]
  congr 1
  simp [batchEquals, hlen]

/-- Witness for C7 at a concrete two-example batch. -/
theorem c7_batch_accuracy_witness :
    ([[(1 : ℚ), 0], [0, 2]].length = [0, 1].length ∧
      0 < [[(1 : ℚ), 0], [0, 2]].length) ∧
    batchAccuracy [[(1 : ℚ), 0], [0, 2]] [0, 1] =
      (topOneCorrectCount [[(1 : ℚ), 0], [0, 2]] [0, 1] : ℚ) /
        ([[(1 : ℚ), 0], [0, 2]].length : ℚ) :=
  ⟨⟨by decide, by decide⟩,
    c7_batch_accuracy [[1, 0], [0, 2]] [0, 1] (by decide) (by decide)⟩

/-- The classifier of the inference notebook (`fc1 : 784 → 256`,
`fc2 : 256 → 128`, `fc3 : 128 → 64`, `fc4 : 64 → 10`); for the claims about
the validation loop only its identity as a bundle of parameter tensors
matters. -/
structure Classifier (α : Type) where
  fc1 : Linear α
  fc2 : Linear α
  fc3 : Linear α
  fc4 : Linear α
deriving DecidableEq

/-- The mutable notebook state the validation loop touches: the model (read
only) and the `accuracy` variable it reassigns on every batch. -/
structure ValState where
  model : Classifier ℚ
  accuracy : ℚ
deriving DecidableEq

/-- The validation pass of the inference notebook: under `torch.no_grad()`,
for each `(images, labels)` batch of the held-out loader, compute
`ps = psOf model images` and reassign `accuracy` to that batch's mean; the
model is only ever read. -/
def validationLoop {ι : Type} (psOf : Classifier ℚ → List ι → List (List ℚ))
    (batches : List (List ι × List Nat)) (s : ValState) : ValState :=
  batches.foldl
    (fun st b => { st with accuracy := batchAccuracy (psOf st.model b.1) b.2 })
    s

/-- C8: the validation pass performs no parameter update — for every model,
every forward function and every sequence of held-out batches, the model (and
hence every one of its parameter tensors) is unchanged by the loop; only the
`accuracy` variable is written. -/
theorem c8_validation_frame {ι : Type}
    (psOf : Classifier ℚ → List ι → List (List ℚ))
    (batches : List (List ι × List Nat)) (s : ValState) :
    (validationLoop psOf batches s).model = s.model := by
  induction batches generalizing s with
  | nil => rfl
  | cons b bt ih =>
    rw [validationLoop, List.foldl_cons]
    exact ih _

/-- Accuracy aggregated across every batch of the held-out loader, as the
claim describes it: the fraction of all held-out examples predicted
correctly. -/
def aggregateAccuracy {ι : Type} (psOf : Classifier ℚ → List ι → List (List ℚ))
    (m : Classifier ℚ) (batches : List (List ι × List Nat)) : ℚ :=
  torchMean
    (batches.foldr (fun b acc => batchEquals (psOf m b.1) b.2 ++ acc) [])

/-- A forward-plus-exp function for the concrete C4 run: an image `0` is
classified as class `0` with probability one, any other image as class `1`. -/
def c4psOf : Classifier ℚ → List Nat → List (List ℚ) :=
  fun _ imgs => imgs.map (fun k => if k = 0 then [1, 0] else [0, 1])

/-- A concrete classifier value (its parameters are irrelevant to
`c4psOf`). -/
def c4model : Classifier ℚ :=
  ⟨⟨0, 0, [], []⟩, ⟨0, 0, [], []⟩, ⟨0, 0, [], []⟩, ⟨0, 0, [], []⟩⟩

/-- C4 is a code bug: `accuracy` is reassigned, not accumulated, inside the
validation loop, so the value printed after the loop is the accuracy of the
final batch only.  On a held-out loader with two one-example batches — the
first predicted wrongly, the second correctly — the loop reports `1` while
the accuracy aggregated across every batch is `1/2`. -/
theorem c4_last_batch_only :
    (validationLoop c4psOf [([0], [1]), ([1], [1])] ⟨c4model, 0⟩).accuracy
        = 1 ∧
    aggregateAccuracy c4psOf c4model [([0], [1]), ([1], [1])] = 1 / 2 ∧
    (validationLoop c4psOf [([0], [1]), ([1], [1])] ⟨c4model, 0⟩).accuracy ≠
      aggregateAccuracy c4psOf c4model [([0], [1]), ([1], [1])] := by
  norm_num [validationLoop, aggregateAccuracy, c4psOf, c4model, batchAccuracy,
    torchMean, batchEquals, boolToQ, idxOfMax, idxOfMaxAux]

/-! ### The classifier forward pass

`Classifier.forward` of the inference notebook, with float32 arithmetic
idealized as exact real arithmetic: flatten (a no-op once the input is typed
as rows of 784 entries), three `relu`-activated linear layers, a final linear
layer, and `log_softmax` along `dim=1` (row-wise). -/

/-- `F.relu`, entrywise. -/
noncomputable def reluV {n : Nat} (x : Fin n → ℝ) : Fin n → ℝ :=
  fun i => max (x i) 0

/-- One `nn.Linear` layer applied to one example. -/
noncomputable def linearForward {m n : Nat} (w : Fin n → Fin m → ℝ)
    (b : Fin n → ℝ) (x : Fin m → ℝ) : Fin n → ℝ :=
  fun j => (∑ k, w j k * x k) + b j

/-- `F.log_softmax` along a row. -/
noncomputable def logSoftmax {n : Nat} (x : Fin n → ℝ) : Fin n → ℝ :=
  fun i => x i - Real.log (∑ j, Real.exp (x j))

/-- The parameters of the inference notebook's `Classifier`:
`fc1 : 784 → 256`, `fc2 : 256 → 128`, `fc3 : 128 → 64`, `fc4 : 64 → 10`. -/
structure ClassifierParams where
  w1 : Fin 256 → Fin 784 → ℝ
  b1 : Fin 256 → ℝ
  w2 : Fin 128 → Fin 256 → ℝ
  b2 : Fin 128 → ℝ
  w3 : Fin 64 → Fin 128 → ℝ
  b3 : Fin 64 → ℝ
  w4 : Fin 10 → Fin 64 → ℝ
  b4 : Fin 10 → ℝ

/-- `Classifier.forward` on a batch of `N` flattened examples: the result has
shape `(N, 10)` by type. -/
noncomputable def ClassifierParams.forward (c : ClassifierParams) {N : Nat}
    (x : Fin N → Fin 784 → ℝ) : Fin N → Fin 10 → ℝ :=
  fun r =>
    logSoftmax (linearForward c.w4 c.b4 (reluV (linearForward c.w3 c.b3
      (reluV (linearForward c.w2 c.b2 (reluV (linearForward c.w1 c.b1
        (x r))))))))

theorem sum_exp_logSoftmax {n : Nat} [Nonempty (Fin n)] (y : Fin n → ℝ) :
    ∑ i, Real.exp (logSoftmax y i) = 1 := by
  have hS : 0 < ∑ j, Real.exp (y j) :=
    Finset.sum_pos (fun j _ => Real.exp_pos _) Finset.univ_nonempty
  simp only [logSoftmax, Real.exp_sub, Real.exp_log hS]
  rw [← Finset.sum_div, div_self (ne_of_gt hS)]

/-- C10: for every parameter assignment and every batch of `N` examples with
784 entries each, `Classifier.forward` returns a tensor of shape `(N, 10)`
(by the type of `ClassifierParams.forward`) in which each row is a vector of
log-probabilities: the exponentials of the entries of each row are positive
and sum to 1. -/
theorem c10_log_probabilities (c : ClassifierParams) (N : Nat)
    (x : Fin N → Fin 784 → ℝ) (r : Fin N) :
    (∀ i, 0 < Real.exp (c.forward x r i)) ∧
    (∑ i, Real.exp (c.forward x r i)) = 1 :=
  ⟨fun _ => Real.exp_pos _, sum_exp_logSoftmax _⟩

end FcNet
